import Mathlib

/-!
Shallow embedding of `bash-template.py`, an interactive generator that
produces a boilerplate bash script from user answers.

Python strings are modelled as `List Char` (`LC`); console input is a list
of events (`InEvent.line` for an entered line, `InEvent.interrupt` for a
KeyboardInterrupt while waiting at a prompt).  Every input-consuming
function returns the list of messages it printed together with a
`PResult`: a value plus the remaining events, a clean `sys.exit`, end of
input, or an uncaught KeyboardInterrupt.
-/

set_option maxHeartbeats 1000000

namespace BashTemplate

abbrev LC := List Char

def lc (s : String) : LC := s.data

/-- Console input events: a line typed by the user, or a KeyboardInterrupt
delivered while the program waits at a prompt. -/
inductive InEvent where
  | line : LC → InEvent
  | interrupt : InEvent
deriving DecidableEq

/-- Result of running an input-consuming piece of the program:
`ok` carries the computed value and the remaining input events;
`exited` is a clean `sys.exit(msg)`;
`eof` means the input stream ran out;
`interrupted` is a KeyboardInterrupt that propagated uncaught. -/
inductive PResult (α : Type) where
  | ok : α → List InEvent → PResult α
  | exited : LC → PResult α
  | eof : PResult α
  | interrupted : PResult α
deriving DecidableEq

/-- Sequencing: run the continuation on an `ok` result, propagate anything
else; printed messages accumulate in order. -/
def pbind {α β : Type} (x : List LC × PResult α)
    (f : α → List InEvent → List LC × PResult β) : List LC × PResult β :=
  match x with
  | (t, PResult.ok a rest) => ((t ++ (f a rest).1), (f a rest).2)
  | (t, PResult.exited m) => (t, PResult.exited m)
  | (t, PResult.eof) => (t, PResult.eof)
  | (t, PResult.interrupted) => (t, PResult.interrupted)

/-- A message printed in front of an existing run (Python `print(...)`
before the next loop iteration). -/
def pprint {α : Type} (m : LC) (x : List LC × PResult α) : List LC × PResult α :=
  (m :: x.1, x.2)

/-- Python's bare `input(prompt)`: prints the prompt and reads a line.
A KeyboardInterrupt here is NOT caught and propagates. -/
def raw_input (prompt : LC) : List InEvent → List LC × PResult LC
  | [] => ([prompt], PResult.eof)
  | InEvent.interrupt :: _ => ([prompt], PResult.interrupted)
  | InEvent.line s :: rest => ([prompt], PResult.ok s rest)

def invalid_msg : LC := lc "Invalid Input."

def exiting_msg : LC := lc "\nExiting"

/-- `sanitize_input(prompt, filter_func, error_msg)` (source lines 423-430):
loop printing the prompt and reading a line; a `filter_func` failure
(Python `KeyError`, modelled by `none`) prints `error_msg` and re-prompts;
a KeyboardInterrupt triggers `sys.exit("\nExiting")`. -/
def sanitize_input {α : Type} (prompt : LC) (filter_func : LC → Option α)
    (error_msg : LC) : List InEvent → List LC × PResult α
  | [] => ([prompt], PResult.eof)
  | InEvent.interrupt :: _ => ([prompt], PResult.exited exiting_msg)
  | InEvent.line s :: rest =>
    match filter_func s with
    | some a => ([prompt], PResult.ok a rest)
    | none =>
      (prompt :: error_msg :: (sanitize_input prompt filter_func error_msg rest).1,
       (sanitize_input prompt filter_func error_msg rest).2)

/-- The identity filter, Python's default `filter_func=lambda x: x`,
which never raises. -/
def id_filter (x : LC) : Option LC := some x

/-- The dictionary filter of `input_bool` (source lines 415-420): lowercase
the answer and look it up; a missing key raises `KeyError`. -/
def bool_filter (x : LC) : Option Bool :=
  if x.map Char.toLower = lc "true" then some true
  else if x.map Char.toLower = lc "false" then some false
  else if x.map Char.toLower = lc "t" then some true
  else if x.map Char.toLower = lc "f" then some false
  else if x.map Char.toLower = lc "yes" then some true
  else if x.map Char.toLower = lc "no" then some false
  else if x.map Char.toLower = lc "y" then some true
  else if x.map Char.toLower = lc "n" then some false
  else none

def input_bool (prompt : LC) (events : List InEvent) : List LC × PResult Bool :=
  sanitize_input prompt bool_filter invalid_msg events

def ascii_lowercase : LC := lc "abcdefghijklmnopqrstuvwxyz"

/-- Python's `sub in hay` on strings: contiguous substring containment. -/
def py_in (sub hay : LC) : Bool :=
  hay.tails.any (fun t => sub.isPrefixOf t)

/-- `check_lowercase_alpha` (source lines 355-362): `letter in
ascii_lowercase` is Python substring containment, so any contiguous
substring of the alphabet (including the empty string and e.g. "ab") is
accepted; anything else raises `KeyError`. -/
def check_lowercase_alpha (letter : LC) : Option LC :=
  if py_in letter ascii_lowercase then some letter else none

/-- Python `re.match("[^_|^a-z|^A-Z]", varname)`: the character class is
the negated set of characters underscore, pipe, caret, a-z, A-Z (the `|`
and the inner `^` are literal class members), and `re.match` anchors at
the start, so only the first character is tested; on the empty string
there is no match. -/
def re_match_invalid_head : LC → Bool
  | [] => false
  | c :: _ => !(c == '_' || c == '|' || c == '^' || c.isAlpha)

/-- `check_uppercase_underscored` (source lines 365-379): raise `KeyError`
when the regex matches (first character outside underscore/pipe/caret/
letters), otherwise return `varname.upper()`.  The console warning printed
when the name is not already uppercase does not affect the returned value
and is not part of the value model. -/
def check_uppercase_underscored (varname : LC) : Option LC :=
  if re_match_invalid_head varname then none
  else some (varname.map Char.toUpper)

/-- The five boolean CLI flags of the generator itself, the result of
`parse_arguments` (source lines 382-412; argparse with five `store_true`
options: `-s` strict, `-n` no_color, `-c` cleanup, `-a` amend_parameters,
`-u` variable_lowercase). -/
structure Args where
  strict : Bool
  no_color : Bool
  cleanup : Bool
  amend_parameters : Bool
  variable_lowercase : Bool
deriving DecidableEq

structure Descriptions where
  long : LC
  short : LC
deriving DecidableEq

/-- `get_script_descriptions` (source lines 48-59). -/
def get_script_descriptions (_args : Args) (events : List InEvent) :
    List LC × PResult Descriptions :=
  pbind (input_bool (lc "Add in script description [True/False]: ") events)
    (fun add_descriptions r1 =>
      if add_descriptions = false then
        ([], PResult.ok { long := lc "TODO <LONG_DESCRIPTION>",
                          short := lc "TODO <SHORT_DESCRIPTION>" } r1)
      else
        pbind (sanitize_input (lc "Short description: ") id_filter invalid_msg r1)
          (fun sd r2 =>
            pbind (sanitize_input (lc "Long description: ") id_filter invalid_msg r2)
              (fun ld r3 => ([], PResult.ok { long := ld, short := sd } r3))))

/-! ### Text wrapping (`split_string_length`, source lines 433-447) -/

/-- Prepend a character to the first piece of a split. -/
def consHead (x : Char) : List LC → List LC
  | [] => [[x]]
  | y :: ys => (x :: y) :: ys

/-- Python `string.split(sep)` for a one-character separator: keeps empty
pieces, and splitting the empty string gives `[[]]`. -/
def splitOnChar (c : Char) : LC → List LC
  | [] => [[]]
  | a :: as => if a = c then [] :: splitOnChar c as else consHead a (splitOnChar c as)

/-- Inverse of `splitOnChar`: re-join pieces with the separator. -/
def unsplit (c : Char) : List LC → LC
  | [] => []
  | [x] => x
  | x :: y :: ys => x ++ c :: unsplit c (y :: ys)

/-- How `splitOnChar` acts on an append: the last piece of the first part
fuses with the first piece of the second part. -/
def glue : List LC → List LC → List LC
  | [], ys => ys
  | x :: xs, ys =>
    match xs with
    | [] => (match ys with
             | [] => [x]
             | y :: ys2 => (x ++ y) :: ys2)
    | x2 :: xs2 => x :: glue (x2 :: xs2) ys

/-- One iteration of the `for word in words` loop of `split_string_length`:
state is `(sentence_length, split_string)`.  In the overflow branch the
word moves to a fresh line after the prefix, and `sentence_length` is
reset to 0 before both branches add `len(word) + 1`. -/
def ssl_step (max_length : Nat) (pfx : LC) (st : Nat × LC) (word : LC) : Nat × LC :=
  if st.1 + word.length > max_length then
    (word.length + 1, st.2 ++ '\n' :: (pfx ++ word ++ [' ']))
  else
    (st.1 + word.length + 1, st.2 ++ word ++ [' '])

/-- `split_string_length(string, max_length, prefix)` (source lines
433-447): split on single spaces, re-flow greedily, and append a final
newline.  Callers that rely on Python's default `prefix=""` pass `[]`. -/
def split_string_length (s : LC) (max_length : Nat) (pfx : LC) : LC :=
  ((splitOnChar ' ' s).foldl (ssl_step max_length pfx) (0, [])).2 ++ ['\n']

/-- `add_headers` (source lines 62-85).  The date is a parameter (the
program uses `date.today().strftime("%m/%d/%Y")`); the author is read with
a bare `input("Author: ")`, not with `sanitize_input`. -/
def add_headers (_args : Args) (descriptions : Descriptions) (today : LC)
    (events : List InEvent) : List LC × PResult LC :=
  pbind (raw_input (lc "Author: ") events) (fun author rest =>
    ([], PResult.ok
      (lc "#!/usr/bin/env bash\n#\n"
        ++ lc "# "
        ++ descriptions.short ++ lc "\n" ++ (lc "# " ++ lc "\n")
        ++ lc "# " ++ split_string_length descriptions.long (79 - (lc "# ").length) (lc "# ")
        ++ lc "# " ++ lc "\n"
        ++ lc "# " ++ lc "Date Created: " ++ today
        ++ lc "\n# \n# Author(s): " ++ author ++ lc "\n\n\n") rest))

/-! ### Fixed script fragments (source lines 88-154, 249-353) -/

/-- `add_useful_vars` (source lines 88-103). -/
def add_useful_vars (_args : Args) : LC :=
  lc "# Exit codes\n"
  ++ lc "sucess_code=0\n"
  ++ lc "replicate_flag_code=1\n"
  ++ lc "invalid_argument_code=2\n"
  ++ lc "missing_argument_code=3\n"
  ++ lc "no_mandatory_flag_code=4\n"
  ++ lc "\n"
  ++ lc "script_name=$\x7b0##*/\x7d\n"
  ++ lc "script_dir=\"$( cd \"$( dirname \"$\x7bBASH_SOURCE[0]\x7d\" )\" >/dev/null 2>&1 && pwd )\"\n"
  ++ lc "\n"

/-- `add_safety` (source lines 106-120). -/
def add_safety (args : Args) : LC :=
  (if args.strict then lc "set -Eeuo pipefail \n" else [])
  ++ (if args.cleanup then lc "trap cleanup SIGINT SIGTERM ERR EXIT \n\n" else [])

/-- `add_colors_function` (source lines 123-139). -/
def add_colors_function (args : Args) : LC :=
  if args.no_color then []
  else
    lc "setup_colors() \x7b\n"
    ++ lc "  if  [[ -t 2 ]] && [[ -z \"$\x7bNO_COLOR-\x7d\" ]] && [[ \"$\x7bTERM-\x7d\" != \"dumb\" ]]; then\n"
    ++ lc "    NOFORMAT=\x27\\033[0m\x27 RED=\x27\\033[0;31m\x27 GREEN=\x27\\033[0;32m\x27 ORANGE=\x27\\033[0;33m\x27 BLUE=\x27\\033[0;34m\x27 PURPLE=\x27\\033[0;35m\x27 CYAN=\x27\\033[0;36m\x27 YELLOW=\x27\\033[1;33m\x27\n"
    ++ lc "  else\n"
    ++ lc "    NOFORMAT=\x27\x27 RED=\x27\x27 GREEN=\x27\x27 ORANGE=\x27\x27 BLUE=\x27\x27 PURPLE=\x27\x27 CYAN=\x27\x27 YELLOW=\x27\x27\n"
    ++ lc "  fi\n"
    ++ lc "\x7d \n\n"

/-- `add_cleanup_function` (source lines 142-154).  The template starts
with a space (the source writes a space before the line continuation). -/
def add_cleanup_function (args : Args) : LC :=
  if args.cleanup = false then []
  else
    lc " cleanup() \x7b\n"
    ++ lc "  trap - SIGINT SIGTERM ERR EXIT\n"
    ++ lc "  # TODO: Script cleanup here\n"
    ++ lc "\x7d \n\n"

/-- `add_flags_functions` (source lines 249-348): the fixed
argument-parsing scaffolding.  Inside the Python triple-quoted string the
backslash-newline on the `echo "Replicate flag: ..."` line is a string
line continuation, so the two halves are joined on one line. -/
def add_flags_functions (_args : Args) : LC :=
  lc "# Checks to see if manadatory flag is present and if not, show usage help and\n"
  ++ lc "# throw error exit code.\n"
  ++ lc "# Args:\n"
  ++ lc "#      $1 - Flag counter\n"
  ++ lc "#      $2 - Flag (e.g. -m)\n"
  ++ lc "function check_mandatory_flag() \x7b\n"
  ++ lc "  if [[ $1 -eq 0 ]]; then\n"
  ++ lc "    echo $2\" flag is required\"\n"
  ++ lc "    echo \"$usage_help\"\n"
  ++ lc "    exit $no_mandatory_flag_code\n"
  ++ lc "  fi\n"
  ++ lc "\x7d\n"
  ++ lc "\n"
  ++ lc "# Loops through all manadatory flags to see if specified\n"
  ++ lc "function check_all_mandatory_flags() \x7b\n"
  ++ lc "  for char in \x7ba..z\x7d \x7b0..9\x7d\n"
  ++ lc "  do\n"
  ++ lc "    if [[ $mandatory_flags =~ $char ]]; then\n"
  ++ lc "      eval \x27check_mandatory_flag $flag_\x27$char\x27 $flag_\x27$char\x27_string\x27\n"
  ++ lc "    fi\n"
  ++ lc "  done\n"
  ++ lc "\x7d\n"
  ++ lc "\n"
  ++ lc "# Intialize all getopts flag counters equal to 0\n"
  ++ lc "function initialize_flag_counters() \x7b\n"
  ++ lc "  for char in \x7ba..z\x7d \x7b0..9\x7d\n"
  ++ lc "  do\n"
  ++ lc "    if [[ $getopts_parameter_string =~ $char ]]; then\n"
  ++ lc "      eval \x27flag_\x27$char\x27=0\x27\n"
  ++ lc "    fi\n"
  ++ lc "  done\n"
  ++ lc "\x7d\n"
  ++ lc "\n"
  ++ lc "# Sum up all the flag counters\n"
  ++ lc "function sum_exp6_flags() \x7b\n"
  ++ lc "  SUM_EXP6=0\n"
  ++ lc "  for char in \x7ba..z\x7d \x7b0..9\x7d\n"
  ++ lc "  do\n"
  ++ lc "    if [[ $getopts_parameter_string =~ $char ]]; then\n"
  ++ lc "      eval \x27SUM_EXP6=$((SUM_EXP6+flag_\x27$char\x27**6))\x27\n"
  ++ lc "    fi\n"
  ++ lc "  done\n"
  ++ lc "\x7d\n"
  ++ lc "\n"
  ++ lc "# Add the flag counters and assign variable based on flag string\n"
  ++ lc "# Args:\n"
  ++ lc "#     $1 - option char (e.g. a, b, c, etc.)\n"
  ++ lc "#     $2 - value assignment (e.g $\x7bOPTARG\x7d)\n"
  ++ lc "function add_assign_getopts() \x7b\n"
  ++ lc "  eval \x27var_name=$\x7bflag_\x27$1\x27_string#*[[:blank:]]\x7d\x27\n"
  ++ lc "  eval $var_name\x27=\x27$2\n"
  ++ lc "  eval \x27flag_\x27$1\x27=$((flag_\x27$1\x27+1))\x27\n"
  ++ lc "\x7d\n"
  ++ lc "\n"
  ++ lc "initialize_flag_counters\n"
  ++ lc "while getopts $getopts_parameter_string option\n"
  ++ lc "do\n"
  ++ lc "  case \"$\x7boption\x7d\" in\n"
  ++ lc "\n"
  ++ lc "    h )\n"
  ++ lc "    echo \"$usage_help\"\n"
  ++ lc "    echo \"\"\n"
  ++ lc "    echo \"$full_help\"\n"
  ++ lc "    exit $sucess_code;;\n"
  ++ lc "\n"
  ++ lc "    : )\n"
  ++ lc "    echo \"Invalid option: -$OPTARG requires an argument\" 1>&2\n"
  ++ lc "    echo $usage_help\n"
  ++ lc "    exit $missing_argument_code;;\n"
  ++ lc "\n"
  ++ lc "    * )\n"
  ++ lc "    # Assign and add flag counter for parameter, if\n"
  ++ lc "    # in getopts_parameter_string\n"
  ++ lc "    if [[ $getopts_parameter_string =~ $\x7boption\x7d ]]; then\n"
  ++ lc "      add_assign_getopts \"$\x7boption\x7d\" $\x7bOPTARG\x7d\n"
  ++ lc "    fi\n"
  ++ lc "    # The following line is a trick used to see if any of the flags have been\n"
  ++ lc "    # defined twice. By exponentiating all flag counters by 6, unless there are\n"
  ++ lc "    # more short arguments defined, a summed counter value of all flags should\n"
  ++ lc "    # only be 36 as there are only 36 alpha-numeral characters. We chose the\n"
  ++ lc "    # lowest number to exponentiate by to prevent accidental overloading.\n"
  ++ lc "    sum_exp6_flags\n"
  ++ lc "    if [[ $SUM_EXP6 -gt 36 ]]; then\n"
  ++ lc "      current_flag_index=$(($OPTIND-2))\n"
  ++ lc "      echo \"Replicate flag: $\x7b!current_flag_index\x7d has already been\"      \"specified\"\n"
  ++ lc "      echo \"$usage_help\"\n"
  ++ lc "      exit $replicate_flag_code\n"
  ++ lc "    fi;;&\n"
  ++ lc "\n"
  ++ lc "    \\? )\n"
  ++ lc "    echo Not a valid option\n"
  ++ lc "    echo $usage_help\n"
  ++ lc "    exit $invalid_argument_code;;\n"
  ++ lc "  esac\n"
  ++ lc "done\n"
  ++ lc "\n"

/-- `call_functions` (source lines 351-353). -/
def call_functions (_args : Args) : LC :=
  lc "check_all_mandatory_flags\nsetup_colors\n"

/-! ### Flag descriptors (source lines 157-246) -/

/-- A flag descriptor, the mapping built by `get_individual_flag_data`.
The built-in help descriptor has no `varname` key, hence the `Option`. -/
structure Flag where
  short : LC
  varname : Option LC
  takes_value : Bool
  mandatory : Bool
  description : LC
deriving DecidableEq

/-- The help descriptor appended before the interactive loop
(source lines 172-176). -/
def help_data : Flag :=
  { short := lc "h", varname := none, takes_value := false, mandatory := false,
    description := lc "Show this help message and exit." }

/-- The argument-builder prompt (source lines 162-169; the backslash after
the opening quotes is a string line continuation, so the text begins with
a single space). -/
def builder_prompt : LC :=
  lc " Argument Builder Commands:\n"
  ++ lc "Dynamically creates flags for bash scripts. Note that you can skip this and call this script later on for adding additional \n"
  ++ lc "flags.\n"
  ++ lc "  A - Add Argument\n"
  ++ lc "  X - Exit Builder\n"
  ++ lc "\n"
  ++ lc "Command: "

/-- The command filter `lambda x: {"a": False, "x": True}[x.lower()]`. -/
def exit_filter (x : LC) : Option Bool :=
  if x.map Char.toLower = lc "a" then some false
  else if x.map Char.toLower = lc "x" then some true
  else none

/-- `get_individual_flag_data` (source lines 189-197). -/
def get_individual_flag_data (_args : Args) (events : List InEvent) :
    List LC × PResult Flag :=
  pbind (sanitize_input (lc "Short hand (a-z): ") check_lowercase_alpha invalid_msg events)
    (fun sh r1 =>
  pbind (sanitize_input (lc "Variable Name: ") check_uppercase_underscored invalid_msg r1)
    (fun vn r2 =>
  pbind (input_bool (lc "Should flag take value? ") r2) (fun tv r3 =>
  pbind (input_bool (lc "Mandatory Variable? ") r3) (fun md r4 =>
  pbind (sanitize_input (lc "Help description: ") id_filter invalid_msg r4) (fun ds r5 =>
  ([], PResult.ok { short := sh, varname := some vn, takes_value := tv,
                    mandatory := md, description := ds } r5))))))

/-- The `while True` loop of `get_flags_data` (source lines 178-185),
written with explicit fuel so that the definition is structural.  Each
iteration consumes at least one input event (the command answer), so
`events.length + 1` fuel always suffices; `flags_loop_fuel_congr` below
makes this precise. -/
def flags_loop (args : Args) : Nat → List Flag → List InEvent → List LC × PResult (List Flag)
  | 0, _, _ => ([], PResult.eof)
  | fuel + 1, flag_data, events =>
    pbind (sanitize_input builder_prompt exit_filter invalid_msg events)
      (fun exitLoop rest =>
        if exitLoop then ([], PResult.ok flag_data rest)
        else
          pbind (get_individual_flag_data args rest) (fun fd rest2 =>
            pprint (lc "Flag added...")
              (flags_loop args fuel (flag_data ++ [fd]) rest2)))

/-- `get_flags_data` (source lines 157-186): start from `[help_data]` and
run the interactive builder loop. -/
def get_flags_data (args : Args) (events : List InEvent) :
    List LC × PResult (List Flag) :=
  flags_loop args (events.length + 1) [help_data] events

/-! ### `add_flags_data` (source lines 200-246) -/

/-- The six string accumulators of the `for flag_data in flags_data`
loop. -/
structure FlagsAcc where
  flag_var_strings : LC
  parameter_string : LC
  mandatory_string : LC
  usage_help_string : LC
  full_optional_help_string : LC
  full_required_help_string : LC
deriving DecidableEq

/-- The continuation indentation used for help descriptions: a newline
followed by 29 spaces (source lines 219-220 and 228-229). -/
def help_indent : LC := '\n' :: List.replicate 29 ' '

/-- One iteration of the loop body of `add_flags_data` (source lines
208-229).  Python reads `flag_data['varname']` only when the short is not
"h"; `help_data`, the only descriptor without that key, has short "h". -/
def add_flag_step (acc : FlagsAcc) (flag_data : Flag) : FlagsAcc :=
  let variable_ := lc "flag_" ++ flag_data.short ++ lc "_string"
  let acc1 := if flag_data.short ≠ lc "h" then
      { acc with flag_var_strings := acc.flag_var_strings ++ variable_ ++ lc "=\"-"
          ++ flag_data.short ++ lc " " ++ flag_data.varname.getD [] ++ lc "\"\n" }
    else acc
  let acc2 := { acc1 with parameter_string := acc1.parameter_string ++ flag_data.short
      ++ (if flag_data.takes_value then lc ":" else []) }
  if flag_data.mandatory then
    { acc2 with
        usage_help_string := acc2.usage_help_string ++ lc " $" ++ variable_,
        mandatory_string := acc2.mandatory_string ++ flag_data.short,
        full_required_help_string := acc2.full_required_help_string ++ lc "$" ++ variable_
          ++ help_indent ++ split_string_length flag_data.description 50 [] }
  else
    let acc3 := if flag_data.short = lc "h" then
        { acc2 with
            usage_help_string := acc2.usage_help_string ++ lc " [-h]",
            full_optional_help_string := acc2.full_optional_help_string ++ lc "-h" }
      else
        { acc2 with
            usage_help_string := acc2.usage_help_string ++ lc " [$" ++ variable_ ++ lc "]",
            full_optional_help_string := acc2.full_optional_help_string ++ lc "$" ++ variable_ }
    { acc3 with full_optional_help_string := acc3.full_optional_help_string
        ++ help_indent ++ split_string_length flag_data.description 50 [] }

/-- Initial accumulator values (source lines 201-206). -/
def flags_init : FlagsAcc :=
  { flag_var_strings := [],
    parameter_string := lc "getopts_parameter_string=\":",
    mandatory_string := lc "mandatory_flags=\"",
    usage_help_string := lc "Usage: $script_name",
    full_optional_help_string := lc "optional arguments:\n",
    full_required_help_string := lc "required arguments:\n" }

def flags_fold (flags_data : List Flag) : FlagsAcc :=
  flags_data.foldl add_flag_step flags_init

/-- `add_flags_data` (source lines 200-246): run the loop, close the
quotes, and assemble the flag block, the wrapped usage heredoc and the
full help heredoc. -/
def add_flags_data (_args : Args) (flags_data : List Flag)
    (descriptions : Descriptions) : LC :=
  let acc := flags_fold flags_data
  let parameter_string := acc.parameter_string ++ lc "\""
  let mandatory_string := acc.mandatory_string ++ lc "\""
  let flag_string := lc "# Flag strings\n" ++ acc.flag_var_strings ++ lc "\n"
      ++ parameter_string ++ lc "\n" ++ mandatory_string ++ lc "\n"
  let usage_string := lc "usage_help=$(cat <<EOF\n"
      ++ split_string_length acc.usage_help_string 80 [] ++ lc "EOF\n)\n"
  let full_help_string := lc "full_help=$(cat <<EOF\n"
      ++ split_string_length descriptions.long 120 []
      ++ lc "\n" ++ acc.full_optional_help_string ++ lc "\n"
      ++ acc.full_required_help_string ++ lc "\nEOF\n)\n"
  flag_string ++ lc "\n" ++ usage_string ++ lc "\n" ++ full_help_string ++ lc "\n"

/-- The per-descriptor contribution to the getopts parameter string: the
short letter, followed by ":" exactly when the flag takes a value. -/
def param_seg (d : Flag) : LC :=
  d.short ++ (if d.takes_value then lc ":" else [])

/-- The per-descriptor contribution to the usage line. -/
def usage_seg (d : Flag) : LC :=
  if d.mandatory then lc " $flag_" ++ d.short ++ lc "_string"
  else if d.short = lc "h" then lc " [-h]"
  else lc " [$flag_" ++ d.short ++ lc "_string]"

/-! ### The main pipeline (source lines 14-45) -/

/-- The content-assembly part of `main` (source lines 14-31): everything
up to, but not including, `create_script`. -/
def build_content (args : Args) (today : LC) (events : List InEvent) :
    List LC × PResult LC :=
  pbind (get_script_descriptions args events) (fun descriptions r1 =>
  pbind (add_headers args descriptions today r1) (fun header r2 =>
  pbind (get_flags_data args r2) (fun flags_data r3 =>
  ([], PResult.ok
    (header ++ add_useful_vars args ++ add_safety args ++ add_cleanup_function args
      ++ add_flags_data args flags_data descriptions ++ add_flags_functions args
      ++ add_colors_function args ++ call_functions args
      ++ lc "\n# SCRIPT STARTS HERE\n") r3))))

/-- The file system, as a map from file names to contents. -/
abbrev FS := LC → Option LC

/-- `open(script_name, "w")` followed by writing `content` and closing:
truncate-or-create, leaving the file with exactly `content`. -/
def open_write (fs : FS) (script_name content : LC) : FS :=
  fun m => if m = script_name then some content else fs m

/-- `open(script_name, "x")` followed by writing `content` and closing:
exclusive create; it is only reached when the file does not exist, where
it also leaves the file with exactly `content`. -/
def open_create (fs : FS) (script_name content : LC) : FS :=
  fun m => if m = script_name then some content else fs m

/-- `create_script` (source lines 37-45): ask for the script name (the
filter appends ".sh" and never raises), then write the content, with
`open("w")` when the file exists and `open("x")` otherwise. -/
def create_script (content : LC) (fs : FS) (events : List InEvent) :
    List LC × PResult FS :=
  pbind (sanitize_input (lc "Script name (don\x27t add extension): ")
      (fun x => some (x ++ lc ".sh")) invalid_msg events)
    (fun script_name rest =>
      if (fs script_name).isSome then
        ([], PResult.ok (open_write fs script_name content) rest)
      else
        ([], PResult.ok (open_create fs script_name content) rest))

/-- `main` (source lines 14-33): build the content, then create the
script. -/
def main (args : Args) (today : LC) (fs : FS) (events : List InEvent) :
    List LC × PResult FS :=
  pbind (build_content args today events) (fun content r =>
    create_script content fs r)

/-! ### Concrete inputs used to instantiate the claims -/

def args0 : Args :=
  { strict := false, no_color := false, cleanup := false,
    amend_parameters := false, variable_lowercase := false }

def descs0 : Descriptions :=
  { long := lc "TODO <LONG_DESCRIPTION>", short := lc "TODO <SHORT_DESCRIPTION>" }

/-- A builder session that adds two flags with the same short letter "a"
and then exits. -/
def dup_session : List InEvent :=
  [InEvent.line (lc "a"), InEvent.line (lc "a"), InEvent.line (lc "FOO"),
   InEvent.line (lc "n"), InEvent.line (lc "n"), InEvent.line (lc "first"),
   InEvent.line (lc "a"), InEvent.line (lc "a"), InEvent.line (lc "BAR"),
   InEvent.line (lc "y"), InEvent.line (lc "y"), InEvent.line (lc "second"),
   InEvent.line (lc "x")]

def dup_flag_one : Flag :=
  { short := lc "a", varname := some (lc "FOO"), takes_value := false,
    mandatory := false, description := lc "first" }

def dup_flag_two : Flag :=
  { short := lc "a", varname := some (lc "BAR"), takes_value := true,
    mandatory := true, description := lc "second" }

/-- A mandatory descriptor with short letter "m", used as a witness. -/
def mand_flag : Flag :=
  { short := lc "m", varname := some (lc "MODE"), takes_value := true,
    mandatory := true, description := lc "mode" }

/-- A concrete starting file system for the `create_script` witness: one
existing file "x.sh". -/
def cs_fs0 : FS := fun m => if m = lc "x.sh" then some (lc "old") else none

/-- Concrete generator flag settings differing only in `-a` and `-u`. -/
def argsA : Args :=
  { strict := true, no_color := false, cleanup := true,
    amend_parameters := true, variable_lowercase := false }

def argsB : Args :=
  { strict := true, no_color := false, cleanup := true,
    amend_parameters := false, variable_lowercase := true }

/-- The per-line guarantee that `split_string_length` actually provides:
either the line fits in `max_length` plus the prefix length plus the one
trailing space the function appends, or the line contains a word longer
than `max_length` (such a word is always placed on a line of its own). -/
def wrap_ok (max_length : Nat) (pfx : LC) (l : LC) : Prop :=
  l.length ≤ pfx.length + max_length + 1
    ∨ ∃ u ∈ splitOnChar ' ' l, max_length < u.length

/-! ## Helper lemmas -/

lemma pbind_ok {α β : Type} {x : List LC × PResult α}
    {f : α → List InEvent → List LC × PResult β} {b : β} {r : List InEvent}
    (h : (pbind x f).2 = PResult.ok b r) :
    ∃ a ra, x.2 = PResult.ok a ra ∧ (f a ra).2 = PResult.ok b r := by
  obtain ⟨t, xr⟩ := x
  cases xr with
  | ok a ra => exact ⟨a, ra, rfl, h⟩
  | exited m => simp [pbind] at h
  | eof => simp [pbind] at h
  | interrupted => simp [pbind] at h

lemma pbind_congr {α β : Type} {x : List LC × PResult α}
    {f g : α → List InEvent → List LC × PResult β}
    (h : ∀ a ra, x.2 = PResult.ok a ra → f a ra = g a ra) : pbind x f = pbind x g := by
  obtain ⟨t, xr⟩ := x
  cases xr with
  | ok a ra => simp only [pbind, h a ra rfl]
  | exited m => rfl
  | eof => rfl
  | interrupted => rfl

lemma sanitize_ok_consumes {α : Type} {p em : LC} {f : LC → Option α} :
    ∀ {ev : List InEvent} {a : α} {rest : List InEvent},
      (sanitize_input p f em ev).2 = PResult.ok a rest → rest.length < ev.length := by
  intro ev
  induction ev with
  | nil => intro a rest h; simp [sanitize_input] at h
  | cons e tl ih =>
    intro a rest h
    cases e with
    | interrupt => simp [sanitize_input] at h
    | line s =>
      cases hf : f s with
      | some b =>
        simp [sanitize_input, hf] at h
        obtain ⟨rfl, rfl⟩ := h
        simp
      | none =>
        simp only [sanitize_input, hf] at h
        exact Nat.lt_succ_of_lt (ih h)

lemma get_individual_ok_consumes {args : Args} :
    ∀ {ev : List InEvent} {fd : Flag} {rest : List InEvent},
      (get_individual_flag_data args ev).2 = PResult.ok fd rest → rest.length < ev.length := by
  intro ev fd rest h
  obtain ⟨a1, r1, h1, h⟩ := pbind_ok h
  obtain ⟨a2, r2, h2, h⟩ := pbind_ok h
  obtain ⟨a3, r3, h3, h⟩ := pbind_ok h
  obtain ⟨a4, r4, h4, h⟩ := pbind_ok h
  obtain ⟨a5, r5, h5, h⟩ := pbind_ok h
  have e1 : r1.length < ev.length := sanitize_ok_consumes h1
  have e2 : r2.length < r1.length := sanitize_ok_consumes h2
  have e3 : r3.length < r2.length := sanitize_ok_consumes h3
  have e4 : r4.length < r3.length := sanitize_ok_consumes h4
  have e5 : r5.length < r4.length := sanitize_ok_consumes h5
  simp only [PResult.ok.injEq] at h
  obtain ⟨h6, h7⟩ := h
  subst h7
  omega

lemma flags_loop_ok_prefix {args : Args} :
    ∀ (fuel : Nat) {acc : List Flag} {ev : List InEvent} {flags : List Flag}
      {rest : List InEvent},
      (flags_loop args fuel acc ev).2 = PResult.ok flags rest → acc <+: flags := by
  intro fuel
  induction fuel with
  | zero =>
    intro acc ev flags rest h
    simp [flags_loop] at h
  | succ n ih =>
    intro acc ev flags rest h
    simp only [flags_loop] at h
    obtain ⟨exitB, r1, h1, h⟩ := pbind_ok h
    cases exitB with
    | true =>
      have : PResult.ok flags rest = PResult.ok acc r1 := by
        simpa using h.symm
      cases this
      exact List.prefix_refl _
    | false =>
      simp only [Bool.false_eq_true, if_false] at h
      obtain ⟨fd, r2, h2, h⟩ := pbind_ok h
      have : (flags_loop args n (acc ++ [fd]) r2).2 = PResult.ok flags rest := h
      exact (List.prefix_append acc [fd]).trans (ih this)

lemma flags_loop_fuel_congr {args : Args} :
    ∀ (f g : Nat) (acc : List Flag) (ev : List InEvent),
      ev.length < f → ev.length < g →
      flags_loop args f acc ev = flags_loop args g acc ev := by
  intro f
  induction f with
  | zero =>
    intro g acc ev hf
    exact absurd hf (Nat.not_lt_zero _)
  | succ n ih =>
    intro g acc ev hf hg
    cases g with
    | zero => exact absurd hg (Nat.not_lt_zero _)
    | succ m =>
      simp only [flags_loop]
      apply pbind_congr
      intro exitB r1 h1
      cases exitB with
      | true => rfl
      | false =>
        simp only [Bool.false_eq_true, if_false]
        apply pbind_congr
        intro fd r2 h2
        have e1 : r1.length < ev.length := sanitize_ok_consumes h1
        have e2 : r2.length < r1.length := get_individual_ok_consumes h2
        have := ih m (acc ++ [fd]) r2 (by omega) (by omega)
        simp only [pprint, this]

/-! ## The `add_flags_data` accumulators -/

lemma add_flag_step_parameter (acc : FlagsAcc) (d : Flag) :
    (add_flag_step acc d).parameter_string = acc.parameter_string ++ param_seg d := by
  simp only [add_flag_step, param_seg]
  split_ifs <;> simp only [List.append_assoc] <;> rfl

lemma add_flag_step_usage (acc : FlagsAcc) (d : Flag) :
    (add_flag_step acc d).usage_help_string = acc.usage_help_string ++ usage_seg d := by
  simp only [add_flag_step, usage_seg]
  split_ifs <;> simp only [List.append_assoc] <;> rfl

lemma add_flag_step_mandatory (acc : FlagsAcc) (d : Flag) :
    (add_flag_step acc d).mandatory_string
      = acc.mandatory_string ++ (if d.mandatory then d.short else []) := by
  simp only [add_flag_step]
  split_ifs <;> simp

lemma foldl_add_flag_parameter :
    ∀ (ds : List Flag) (acc : FlagsAcc),
      (ds.foldl add_flag_step acc).parameter_string
        = acc.parameter_string ++ (ds.map param_seg).join := by
  intro ds
  induction ds with
  | nil => intro acc; simp
  | cons d tl ih =>
    intro acc
    simp [List.foldl_cons, ih, add_flag_step_parameter, List.append_assoc]

lemma foldl_add_flag_usage :
    ∀ (ds : List Flag) (acc : FlagsAcc),
      (ds.foldl add_flag_step acc).usage_help_string
        = acc.usage_help_string ++ (ds.map usage_seg).join := by
  intro ds
  induction ds with
  | nil => intro acc; simp
  | cons d tl ih =>
    intro acc
    simp [List.foldl_cons, ih, add_flag_step_usage, List.append_assoc]

lemma foldl_add_flag_mandatory :
    ∀ (ds : List Flag) (acc : FlagsAcc),
      (ds.foldl add_flag_step acc).mandatory_string
        = acc.mandatory_string
          ++ ((ds.filter fun d => d.mandatory).map fun d => d.short).join := by
  intro ds
  induction ds with
  | nil => intro acc; simp
  | cons d tl ih =>
    intro acc
    rw [List.foldl_cons, ih, add_flag_step_mandatory]
    cases hm : d.mandatory <;> simp [List.filter_cons, hm, List.append_assoc]

lemma usage_seg_infix {d : Flag} {ds : List Flag} (h : d ∈ ds) :
    usage_seg d <:+: (flags_fold ds).usage_help_string := by
  obtain ⟨l1, l2, rfl⟩ := List.append_of_mem h
  refine ⟨flags_init.usage_help_string ++ (l1.map usage_seg).join,
          (l2.map usage_seg).join, ?_⟩
  rw [flags_fold, foldl_add_flag_usage]
  simp [List.append_assoc]

/-! ## Claims about the assembled flag strings -/

/-- Claim C2: for every descriptor list, the assembled usage string
(`usage_help_string`, source lines 204-227) contains, for every mandatory
descriptor, the bracket-free variable reference " $flag_<short>_string",
and, for every optional descriptor, " [-h]" for the help flag and the
bracketed " [$flag_<short>_string]" otherwise. -/
theorem usage_string_lists_all_flags (ds : List Flag) (d : Flag) (hmem : d ∈ ds) :
    (d.mandatory = true →
      lc " $flag_" ++ d.short ++ lc "_string" <:+: (flags_fold ds).usage_help_string)
    ∧ (d.mandatory = false →
      (if d.short = lc "h" then lc " [-h]" else lc " [$flag_" ++ d.short ++ lc "_string]")
        <:+: (flags_fold ds).usage_help_string) := by
  constructor
  · intro hm
    have h2 := usage_seg_infix hmem
    rwa [usage_seg, if_pos hm] at h2
  · intro hm
    have h2 := usage_seg_infix hmem
    rwa [usage_seg, if_neg (by simp [hm])] at h2

/-- Witness for C2 on the concrete list `[help_data, mand_flag]`. -/
theorem usage_string_lists_all_flags_witness :
    lc " $flag_m_string" <:+: (flags_fold [help_data, mand_flag]).usage_help_string
    ∧ lc " [-h]" <:+: (flags_fold [help_data, mand_flag]).usage_help_string := by
  constructor
  · exact (usage_string_lists_all_flags [help_data, mand_flag] mand_flag
      (by decide)).1 (by decide)
  · have h2 := (usage_string_lists_all_flags [help_data, mand_flag] help_data
      (by decide)).2 (by decide)
    simpa using h2

/-- Claim C7: the getopts parameter string opens with ":" and then lists,
in descriptor order, each short letter immediately followed by ":" exactly
when the flag takes a value (`param_seg`); the mandatory string is exactly
the concatenation of the mandatory descriptors' short letters.  (The final
assembly in `add_flags_data` appends only the closing quote to each.) -/
theorem getopts_and_mandatory_strings_exact (ds : List Flag) :
    (flags_fold ds).parameter_string
      = lc "getopts_parameter_string=\"" ++ lc ":" ++ (ds.map param_seg).join
    ∧ (flags_fold ds).mandatory_string
      = lc "mandatory_flags=\"" ++ ((ds.filter fun d => d.mandatory).map fun d => d.short).join := by
  constructor
  · rw [flags_fold, foldl_add_flag_parameter]
    rfl
  · rw [flags_fold, foldl_add_flag_mandatory]
    rfl

/-- Claim C10: whenever the builder loop returns a descriptor list, its
first element is the fixed help descriptor, so the usage string contains
" [-h]" and the getopts parameter string contains the letter h, even when
the user adds no flags. -/
theorem help_flag_first_and_present (args : Args) (ev : List InEvent)
    (flags : List Flag) (rest : List InEvent)
    (h : (get_flags_data args ev).2 = PResult.ok flags rest) :
    flags.head? = some help_data
    ∧ lc " [-h]" <:+: (flags_fold flags).usage_help_string
    ∧ 'h' ∈ (flags_fold flags).parameter_string := by
  have hpre : [help_data] <+: flags := flags_loop_ok_prefix (ev.length + 1) h
  obtain ⟨t, ht⟩ := hpre
  refine ⟨?_, ?_, ?_⟩
  · rw [← ht]; rfl
  · have hmem : help_data ∈ flags := by rw [← ht]; simp
    exact usage_seg_infix hmem
  · rw [flags_fold, foldl_add_flag_parameter, ← ht]
    simp [param_seg, help_data]
    exact Or.inr (Or.inl (by decide))

/-- Witness for C10: the session whose only answer is "x" produces exactly
`[help_data]`. -/
theorem help_flag_first_and_present_witness :
    ([help_data] : List Flag).head? = some help_data
    ∧ lc " [-h]" <:+: (flags_fold [help_data]).usage_help_string
    ∧ 'h' ∈ (flags_fold [help_data]).parameter_string :=
  help_flag_first_and_present args0 [InEvent.line (lc "x")] [help_data] [] (by decide)

/-- Claim C3: the builder loop only ever appends descriptors (whatever was
already collected is a prefix of the result, with no rejection or removal
on duplicate short letters), and the concrete session `dup_session`, which
defines two flags with the same short letter "a", is accepted with both
descriptors kept. -/
theorem flags_accepts_duplicate_shorts :
    (∀ (args : Args) (fuel : Nat) (acc flags : List Flag) (ev rest : List InEvent),
        (flags_loop args fuel acc ev).2 = PResult.ok flags rest → acc <+: flags)
    ∧ (get_flags_data args0 dup_session).2
        = PResult.ok [help_data, dup_flag_one, dup_flag_two] []
    ∧ dup_flag_one.short = dup_flag_two.short := by
  refine ⟨fun args fuel acc flags ev rest h => flags_loop_ok_prefix fuel h, ?_, rfl⟩
  rfl

/-- Witness for C3 at the duplicate-shorts session. -/
theorem flags_accepts_duplicate_shorts_witness :
    [help_data] <+: [help_data, dup_flag_one, dup_flag_two] :=
  flags_accepts_duplicate_shorts.1 args0 14 [help_data]
    [help_data, dup_flag_one, dup_flag_two] dup_session [] (by rfl)

/-! ## Input validation claims -/

lemma py_in_iff (sub hay : LC) : py_in sub hay = true ↔ sub <:+: hay := by
  simp only [py_in, List.any_eq_true]
  constructor
  · rintro ⟨t, ht, hp⟩
    rw [List.mem_tails] at ht
    rw [ List.isPrefixOf_iff_prefix] at hp
    exact List.infix_iff_prefix_suffix.mpr ⟨t, hp, ht⟩
  · intro hinf
    obtain ⟨t, hp, hs⟩ := List.infix_iff_prefix_suffix.mp hinf
    exact ⟨t, (List.mem_tails t hay).mpr hs, ( List.isPrefixOf_iff_prefix).mpr hp⟩

/-- Claim C4 (amended): the regex check only tests the first character, so
re-prompting happens exactly for a nonempty variable name whose FIRST
character is not a letter, underscore, pipe or caret: `sanitize_input`
catches the `KeyError`, prints the error message, and continues on the
remaining input. -/
theorem varname_head_validation (c : Char) (tlv : LC) (rest : List InEvent)
    (h : (c == '_' || c == '|' || c == '^' || c.isAlpha) = false) :
    sanitize_input (lc "Variable Name: ") check_uppercase_underscored invalid_msg
        (InEvent.line (c :: tlv) :: rest)
      = ((lc "Variable Name: ") :: invalid_msg ::
          (sanitize_input (lc "Variable Name: ") check_uppercase_underscored invalid_msg rest).1,
         (sanitize_input (lc "Variable Name: ") check_uppercase_underscored invalid_msg rest).2) := by
  have hnone : check_uppercase_underscored (c :: tlv) = none := by
    simp [check_uppercase_underscored, re_match_invalid_head, h]
  simp [sanitize_input, hnone]

/-- Witness for the amended C4 at the rejected input "3X". -/
theorem varname_head_validation_witness :
    sanitize_input (lc "Variable Name: ") check_uppercase_underscored invalid_msg
        [InEvent.line ('3' :: lc "X")]
      = ((lc "Variable Name: ") :: invalid_msg ::
          (sanitize_input (lc "Variable Name: ") check_uppercase_underscored invalid_msg []).1,
         (sanitize_input (lc "Variable Name: ") check_uppercase_underscored invalid_msg []).2) :=
  varname_head_validation '3' (lc "X") [] (by decide)

/-- Counterexample to C4 as stated: "A3" contains the digit 3, which is
neither a letter nor an underscore, yet `check_uppercase_underscored`
accepts it (no `KeyError`, no re-prompt) because only the first character
is examined. -/
theorem varname_invalid_char_accepted :
    ('3' ∈ lc "A3" ∧ ('3'.isAlpha = false ∧ '3' ≠ '_'))
    ∧ check_uppercase_underscored (lc "A3") = some (lc "A3")
    ∧ (sanitize_input (lc "Variable Name: ") check_uppercase_underscored invalid_msg
        [InEvent.line (lc "A3")]).2 = PResult.ok (lc "A3") [] := by
  decide

/-- Claim C5 (amended): `check_lowercase_alpha` uses Python substring
containment, so the short-flag prompt re-prompts exactly for inputs that
are not contiguous substrings of "abcdefghijklmnopqrstuvwxyz"; in those
cases, and for every non-yes/no answer at a boolean prompt, the error is
caught, "Invalid Input." is printed, and the prompt repeats on the
remaining input instead of returning or propagating. -/
theorem invalid_prompt_answers_reprompt (s : LC) (rest : List InEvent) (pr : LC) :
    (¬ s <:+: ascii_lowercase →
      sanitize_input (lc "Short hand (a-z): ") check_lowercase_alpha invalid_msg
          (InEvent.line s :: rest)
        = ((lc "Short hand (a-z): ") :: invalid_msg ::
            (sanitize_input (lc "Short hand (a-z): ") check_lowercase_alpha invalid_msg rest).1,
           (sanitize_input (lc "Short hand (a-z): ") check_lowercase_alpha invalid_msg rest).2))
    ∧ (s.map Char.toLower ∉
        [lc "true", lc "false", lc "t", lc "f", lc "yes", lc "no", lc "y", lc "n"] →
      input_bool pr (InEvent.line s :: rest)
        = (pr :: invalid_msg :: (input_bool pr rest).1, (input_bool pr rest).2)) := by
  constructor
  · intro h
    have hb : py_in s ascii_lowercase = false := by
      cases hpy : py_in s ascii_lowercase
      · rfl
      · exact absurd ((py_in_iff s ascii_lowercase).mp hpy) h
    have hnone : check_lowercase_alpha s = none := by
      simp [check_lowercase_alpha, hb]
    simp [sanitize_input, hnone]
  · intro h
    obtain ⟨n1, n2, n3, n4, n5, n6, n7, n8⟩ :
        ¬ s.map Char.toLower = lc "true" ∧ ¬ s.map Char.toLower = lc "false"
        ∧ ¬ s.map Char.toLower = lc "t" ∧ ¬ s.map Char.toLower = lc "f"
        ∧ ¬ s.map Char.toLower = lc "yes" ∧ ¬ s.map Char.toLower = lc "no"
        ∧ ¬ s.map Char.toLower = lc "y" ∧ ¬ s.map Char.toLower = lc "n" := by
      simpa [not_or] using h
    have hnone : bool_filter s = none := by
      simp [bool_filter, n1, n2, n3, n4, n5, n6, n7, n8]
    simp [input_bool, sanitize_input, hnone]

/-- Witness for the amended C5: "ba" at the short-flag prompt and "maybe"
at a boolean prompt are both caught and re-prompted. -/
theorem invalid_prompt_answers_reprompt_witness :
    sanitize_input (lc "Short hand (a-z): ") check_lowercase_alpha invalid_msg
        [InEvent.line (lc "ba")]
      = ((lc "Short hand (a-z): ") :: invalid_msg ::
          (sanitize_input (lc "Short hand (a-z): ") check_lowercase_alpha invalid_msg []).1,
         (sanitize_input (lc "Short hand (a-z): ") check_lowercase_alpha invalid_msg []).2)
    ∧ input_bool (lc "Should flag take value? ") [InEvent.line (lc "maybe")]
      = ((lc "Should flag take value? ") :: invalid_msg ::
          (input_bool (lc "Should flag take value? ") []).1,
         (input_bool (lc "Should flag take value? ") []).2) :=
  ⟨(invalid_prompt_answers_reprompt (lc "ba") [] (lc "Should flag take value? ")).1
      (by decide),
   (invalid_prompt_answers_reprompt (lc "maybe") [] (lc "Should flag take value? ")).2
      (by decide)⟩

/-- Counterexample to C5 as stated: "ab" has two characters, so it is not
a lowercase ASCII letter, yet the short-flag validator accepts it without
any error or re-prompt (Python substring containment). -/
theorem short_flag_multichar_accepted :
    (lc "ab").length = 2
    ∧ check_lowercase_alpha (lc "ab") = some (lc "ab")
    ∧ sanitize_input (lc "Short hand (a-z): ") check_lowercase_alpha invalid_msg
        [InEvent.line (lc "ab")]
      = ([lc "Short hand (a-z): "], PResult.ok (lc "ab") []) := by
  decide

/-- Claim C6: at the "Author: " prompt `add_headers` uses a bare
`input()`, so a KeyboardInterrupt there propagates uncaught instead of the
clean `sys.exit("\nExiting")` that every `sanitize_input` prompt performs
(third conjunct shows the contrast). -/
theorem author_prompt_interrupt_uncaught :
    (add_headers args0 descs0 (lc "01/01/2026") [InEvent.interrupt]).2 = PResult.interrupted
    ∧ (add_headers args0 descs0 (lc "01/01/2026") [InEvent.interrupt]).2
        ≠ PResult.exited exiting_msg
    ∧ (sanitize_input (lc "Author: ") id_filter invalid_msg [InEvent.interrupt]).2
        = PResult.exited exiting_msg := by
  refine ⟨rfl, by decide, rfl⟩

/-! ## File creation and flag independence -/

lemma flags_loop_args_eq (a b : Args) :
    ∀ (fuel : Nat) (acc : List Flag) (ev : List InEvent),
      flags_loop a fuel acc ev = flags_loop b fuel acc ev := by
  intro fuel
  induction fuel with
  | zero => intro acc ev; rfl
  | succ n ih =>
    intro acc ev
    simp only [flags_loop]
    apply pbind_congr
    intro exitB r1 h1
    cases exitB with
    | true => rfl
    | false =>
      simp only [Bool.false_eq_true, if_false]
      have eg : get_individual_flag_data a = get_individual_flag_data b := rfl
      rw [eg]
      apply pbind_congr
      intro fd r2 h2
      simp only [pprint, ih]

/-- Claim C8: `create_script` writes exactly one file: the name is the
answer plus ".sh", that file ends up with exactly the generated content
(created if absent, overwritten if present), and every other file is
untouched. -/
theorem create_script_single_file (content : LC) (fs : FS) (ans : LC)
    (rest : List InEvent) :
    (create_script content fs (InEvent.line ans :: rest)).2
      = PResult.ok (open_write fs (ans ++ lc ".sh") content) rest
    ∧ open_write fs (ans ++ lc ".sh") content (ans ++ lc ".sh") = some content
    ∧ (∀ m, m ≠ ans ++ lc ".sh" → open_write fs (ans ++ lc ".sh") content m = fs m) := by
  refine ⟨?_, by simp [open_write], fun m hm => by simp [open_write, hm]⟩
  simp only [create_script, sanitize_input, pbind]
  cases hfs : fs (ans ++ lc ".sh") <;> simp [hfs, open_write, open_create] <;> rfl

/-- Witness for C8: overwriting the existing "x.sh" in `cs_fs0`, leaving
"y.sh" alone. -/
theorem create_script_single_file_witness :
    (create_script (lc "C") cs_fs0 [InEvent.line (lc "x")]).2
      = PResult.ok (open_write cs_fs0 (lc "x.sh") (lc "C")) []
    ∧ open_write cs_fs0 (lc "x.sh") (lc "C") (lc "x.sh") = some (lc "C")
    ∧ open_write cs_fs0 (lc "x.sh") (lc "C") (lc "y.sh") = cs_fs0 (lc "y.sh") := by
  obtain ⟨h1, h2, h3⟩ := create_script_single_file (lc "C") cs_fs0 (lc "x") []
  exact ⟨h1, h2, h3 (lc "y.sh") (by decide)⟩

/-- Claim C9: two runs with identical console answers produce identical
printed prompts and identical generated content whenever the runs agree on
`-s`, `-n`, `-c`; the parsed `-a` (amend_parameters) and `-u`
(variable_lowercase) flags influence neither the generated text nor any
input validation. -/
theorem generated_content_ignores_amend_and_lowercase (a b : Args) (today : LC)
    (ev : List InEvent) (h1 : a.strict = b.strict) (h2 : a.no_color = b.no_color)
    (h3 : a.cleanup = b.cleanup) :
    build_content a today ev = build_content b today ev := by
  obtain ⟨s, n, c, am, u⟩ := a
  obtain ⟨s2, n2, c2, am2, u2⟩ := b
  dsimp only at h1 h2 h3
  subst h1; subst h2; subst h3
  have e1 : get_script_descriptions ⟨s, n, c, am, u⟩
      = get_script_descriptions ⟨s, n, c, am2, u2⟩ := rfl
  have e2 : add_headers ⟨s, n, c, am, u⟩ = add_headers ⟨s, n, c, am2, u2⟩ := rfl
  have e3 : get_flags_data ⟨s, n, c, am, u⟩ = get_flags_data ⟨s, n, c, am2, u2⟩ := by
    funext ev2
    exact flags_loop_args_eq _ _ (ev2.length + 1) [help_data] ev2
  have e4 : add_useful_vars ⟨s, n, c, am, u⟩ = add_useful_vars ⟨s, n, c, am2, u2⟩ := rfl
  have e5 : add_safety ⟨s, n, c, am, u⟩ = add_safety ⟨s, n, c, am2, u2⟩ := rfl
  have e6 : add_cleanup_function ⟨s, n, c, am, u⟩
      = add_cleanup_function ⟨s, n, c, am2, u2⟩ := rfl
  have e7 : add_flags_data ⟨s, n, c, am, u⟩ = add_flags_data ⟨s, n, c, am2, u2⟩ := rfl
  have e8 : add_flags_functions ⟨s, n, c, am, u⟩
      = add_flags_functions ⟨s, n, c, am2, u2⟩ := rfl
  have e9 : add_colors_function ⟨s, n, c, am, u⟩
      = add_colors_function ⟨s, n, c, am2, u2⟩ := rfl
  have e10 : call_functions ⟨s, n, c, am, u⟩ = call_functions ⟨s, n, c, am2, u2⟩ := rfl
  simp only [build_content, e1, e2, e3, e4, e5, e6, e7, e8, e9, e10]

/-- Witness for C9 at concrete flag settings differing only in `-a`/`-u`. -/
theorem generated_content_ignores_amend_and_lowercase_witness :
    build_content argsA (lc "01/01/2026") [] = build_content argsB (lc "01/01/2026") [] :=
  generated_content_ignores_amend_and_lowercase argsA argsB (lc "01/01/2026") []
    rfl rfl rfl

/-! ## `splitOnChar` toolkit for the text-wrapping proof -/

lemma splitOnChar_ne_nil (c : Char) (l : LC) : splitOnChar c l ≠ [] := by
  cases l with
  | nil => simp [splitOnChar]
  | cons a as =>
    simp only [splitOnChar]
    split_ifs
    · simp
    · cases h : splitOnChar c as <;> simp [consHead]

lemma splitOnChar_concat_shape (c : Char) (l : LC) :
    ∃ L lst, splitOnChar c l = L ++ [lst] := by
  rcases List.eq_nil_or_concat (splitOnChar c l) with h | ⟨L, lst, h⟩
  · exact absurd h (splitOnChar_ne_nil c l)
  · exact ⟨L, lst, by simpa using h⟩

lemma glue_cons_of_ne_nil (x : LC) (xs ys : List LC) (h : xs ≠ []) :
    glue (x :: xs) ys = x :: glue xs ys := by
  cases xs with
  | nil => exact absurd rfl h
  | cons x2 xs2 => rfl

lemma glue_consHead (a : Char) (S T : List LC) :
    glue (consHead a S) T = consHead a (glue S T) := by
  cases S with
  | nil =>
    cases T with
    | nil => rfl
    | cons t ts => rfl
  | cons s ss =>
    cases ss with
    | nil =>
      cases T with
      | nil => rfl
      | cons t ts => simp [consHead, glue]
    | cons s2 ss2 => rfl

lemma glue_nil_head (S T : List LC) (h : S ≠ []) :
    glue ([] :: S) T = [] :: glue S T := by
  cases S with
  | nil => exact absurd rfl h
  | cons s ss => rfl

lemma splitOnChar_cons (c a : Char) (l : LC) :
    splitOnChar c (a :: l)
      = if a = c then [] :: splitOnChar c l else consHead a (splitOnChar c l) := rfl

lemma splitOnChar_append (c : Char) :
    ∀ (a b : LC), splitOnChar c (a ++ b) = glue (splitOnChar c a) (splitOnChar c b) := by
  intro a
  induction a with
  | nil =>
    intro b
    cases h : splitOnChar c b with
    | nil => exact absurd h (splitOnChar_ne_nil c b)
    | cons b0 bs =>
      rw [List.nil_append, h]
      rfl
  | cons x xs ih =>
    intro b
    by_cases hx : x = c
    · subst hx
      rw [List.cons_append, splitOnChar_cons, if_pos rfl, splitOnChar_cons, if_pos rfl,
        glue_nil_head _ _ (splitOnChar_ne_nil x xs), ih]
    · rw [List.cons_append, splitOnChar_cons, if_neg hx, splitOnChar_cons, if_neg hx,
        glue_consHead, ih]

lemma glue_concat (xl y : LC) :
    ∀ (X ys : List LC), glue (X ++ [xl]) (y :: ys) = X ++ (xl ++ y) :: ys := by
  intro X
  induction X with
  | nil => intro ys; rfl
  | cons x X2 ih =>
    intro ys
    rw [List.cons_append, glue_cons_of_ne_nil x (X2 ++ [xl]) _ (by simp), ih]
    rfl

lemma splitOnChar_sublist (c : Char) :
    ∀ (l : LC) (f : LC), f ∈ splitOnChar c l → List.Sublist f l := by
  intro l
  induction l with
  | nil =>
    intro f hf
    simp [splitOnChar] at hf
    simp [hf]
  | cons a as ih =>
    intro f hf
    by_cases ha : a = c
    · rw [splitOnChar_cons, if_pos ha] at hf
      rcases List.mem_cons.mp hf with h | h
      · simp [h]
      · exact (ih f h).cons a
    · rw [splitOnChar_cons, if_neg ha] at hf
      cases hS : splitOnChar c as with
      | nil => exact absurd hS (splitOnChar_ne_nil c as)
      | cons s ss =>
        rw [hS] at hf
        rcases List.mem_cons.mp hf with h | h
        · subst h
          exact (ih s (by rw [hS]; exact List.mem_cons_self s ss)).cons₂ a
        · exact (ih f (by rw [hS]; exact List.mem_cons_of_mem s h)).cons a

lemma splitOnChar_not_mem (c : Char) :
    ∀ (l : LC) (f : LC), f ∈ splitOnChar c l → c ∉ f := by
  intro l
  induction l with
  | nil =>
    intro f hf
    simp [splitOnChar] at hf
    simp [hf]
  | cons a as ih =>
    intro f hf
    by_cases ha : a = c
    · rw [splitOnChar_cons, if_pos ha] at hf
      rcases List.mem_cons.mp hf with h | h
      · simp [h]
      · exact ih f h
    · rw [splitOnChar_cons, if_neg ha] at hf
      cases hS : splitOnChar c as with
      | nil => exact absurd hS (splitOnChar_ne_nil c as)
      | cons s ss =>
        rw [hS] at hf
        rcases List.mem_cons.mp hf with h | h
        · subst h
          intro hc
          rcases List.mem_cons.mp hc with h2 | h2
          · exact ha h2.symm
          · exact ih s (by rw [hS]; exact List.mem_cons_self s ss) h2
        · exact ih f (by rw [hS]; exact List.mem_cons_of_mem s h)

lemma splitOnChar_single_of_not_mem (c : Char) :
    ∀ (w : LC), c ∉ w → splitOnChar c w = [w] := by
  intro w
  induction w with
  | nil => intro; rfl
  | cons a as ih =>
    intro h
    have ha : ¬ a = c := fun e => h (by simp [e])
    rw [splitOnChar_cons, if_neg ha, ih (fun hc => h (List.mem_cons_of_mem a hc))]
    rfl

lemma unsplit_splitOnChar (c : Char) : ∀ (l : LC), unsplit c (splitOnChar c l) = l := by
  intro l
  induction l with
  | nil => rfl
  | cons a as ih =>
    by_cases ha : a = c
    · subst ha
      rw [splitOnChar_cons, if_pos rfl]
      cases hS : splitOnChar a as with
      | nil => exact absurd hS (splitOnChar_ne_nil a as)
      | cons s ss =>
        rw [hS] at ih
        simp [unsplit, ih]
    · rw [splitOnChar_cons, if_neg ha]
      cases hS : splitOnChar c as with
      | nil => exact absurd hS (splitOnChar_ne_nil c as)
      | cons s ss =>
        rw [hS] at ih
        cases ss with
        | nil =>
          simp [unsplit] at ih
          simp [consHead, unsplit, ih]
        | cons s2 ss2 =>
          simp [unsplit] at ih ⊢
          simp [consHead, unsplit, ih]

lemma eq_of_splitOnChar_single {c : Char} {l x : LC}
    (h : splitOnChar c l = [x]) : l = x := by
  have h2 := unsplit_splitOnChar c l
  rw [h] at h2
  exact h2.symm

lemma word_gives_long_piece (a w t : LC) (hw : ' ' ∉ w) :
    ∃ u ∈ splitOnChar ' ' (a ++ (w ++ t)), w.length ≤ u.length := by
  obtain ⟨t0, ts, hT⟩ : ∃ t0 ts, splitOnChar ' ' t = t0 :: ts := by
    cases h : splitOnChar ' ' t with
    | nil => exact absurd h (splitOnChar_ne_nil ' ' t)
    | cons t0 ts => exact ⟨t0, ts, rfl⟩
  obtain ⟨A, al, hA⟩ := splitOnChar_concat_shape ' ' a
  have hwt : splitOnChar ' ' (w ++ t) = (w ++ t0) :: ts := by
    rw [splitOnChar_append, splitOnChar_single_of_not_mem ' ' w hw, hT]
    rfl
  have hfull : splitOnChar ' ' (a ++ (w ++ t)) = A ++ (al ++ (w ++ t0)) :: ts := by
    rw [splitOnChar_append, hA, hwt, glue_concat]
  refine ⟨al ++ (w ++ t0), ?_, ?_⟩
  · rw [hfull]; simp
  · simp
    omega

/-! ## The wrapping invariant -/

/-- Invariant of the `for word in words` fold: if the completed lines and
the current last line of the accumulated output satisfy `wrap_ok`, and the
last line is no longer than the prefix plus `sentence_length`, then the
same holds after processing the remaining (space-free) words. -/
lemma ssl_fold_invariant (maxw : Nat) (pfx : LC) :
    ∀ (ws : List LC), (∀ w ∈ ws, ' ' ∉ w) →
    ∀ (sl : Nat) (out : LC) (L : List LC) (lst : LC),
      splitOnChar '\n' out = L ++ [lst] →
      (∀ l ∈ L, wrap_ok maxw pfx l) →
      wrap_ok maxw pfx lst →
      lst.length ≤ pfx.length + sl →
      ∃ L2 lst2,
        splitOnChar '\n' (ws.foldl (ssl_step maxw pfx) (sl, out)).2 = L2 ++ [lst2]
        ∧ (∀ l ∈ L2, wrap_ok maxw pfx l)
        ∧ wrap_ok maxw pfx lst2
        ∧ lst2.length ≤ pfx.length + (ws.foldl (ssl_step maxw pfx) (sl, out)).1 := by
  intro ws
  induction ws with
  | nil =>
    intro _ sl out L lst hsplit hL hlst hlen
    exact ⟨L, lst, hsplit, hL, hlst, hlen⟩
  | cons w ws ih =>
    intro hws sl out L lst hsplit hL hlst hlen
    have hw : ' ' ∉ w := hws w (List.mem_cons_self w ws)
    have hws2 : ∀ v ∈ ws, ' ' ∉ v := fun v hv => hws v (List.mem_cons_of_mem w hv)
    rw [List.foldl_cons]
    obtain ⟨W, wl, hW⟩ := splitOnChar_concat_shape '\n' w
    have hwsp : splitOnChar '\n' (w ++ [' ']) = W ++ [wl ++ [' ']] := by
      rw [splitOnChar_append, hW]
      have h1 : splitOnChar '\n' [' '] = [' '] :: [] := rfl
      rw [h1, glue_concat]
    have hsubw : ∀ f ∈ W ++ [wl], List.Sublist f w := by
      intro f hf
      exact splitOnChar_sublist '\n' w f (by rw [hW]; exact hf)
    have hwllen : wl.length ≤ w.length := (hsubw wl (by simp)).length_le
    have hwlsp : ' ' ∉ wl := fun hsp => hw ((hsubw wl (by simp)).subset hsp)
    by_cases hov : sl + w.length > maxw
    · -- overflow: the word moves to a fresh line after the prefix
      have hstep : ssl_step maxw pfx (sl, out) w
          = (w.length + 1, out ++ ('\n' :: (pfx ++ w ++ [' ']))) := by
        simp [ssl_step, hov]
      rw [hstep]
      obtain ⟨P, pl, hP⟩ := splitOnChar_concat_shape '\n' pfx
      have hfragp : ∀ f ∈ P ++ [pl], List.Sublist f pfx := by
        intro f hf
        exact splitOnChar_sublist '\n' pfx f (by rw [hP]; exact hf)
      have hpl : pl.length ≤ pfx.length := (hfragp pl (by simp)).length_le
      have hPok : ∀ f ∈ P, wrap_ok maxw pfx f := by
        intro f hf
        have := (hfragp f (List.mem_append_left _ hf)).length_le
        exact Or.inl (by omega)
      have hout : splitOnChar '\n' (out ++ ('\n' :: (pfx ++ w ++ [' '])))
          = L ++ lst :: glue (P ++ [pl]) (W ++ [wl ++ [' ']]) := by
        rw [splitOnChar_append, hsplit, splitOnChar_cons, if_pos rfl]
        have hassoc : pfx ++ w ++ [' '] = pfx ++ (w ++ [' ']) := by
          simp [List.append_assoc]
        rw [hassoc, splitOnChar_append, hP, hwsp, glue_concat, List.append_nil]
      cases W with
      | nil =>
        have hwwl : w = wl := eq_of_splitOnChar_single (by simpa using hW)
        have hglue : glue (P ++ [pl]) (([] : List LC) ++ [wl ++ [' ']])
            = P ++ [pl ++ (wl ++ [' '])] := by
          rw [List.nil_append, glue_concat]
        rw [hglue] at hout
        have hout2 : splitOnChar '\n' (out ++ ('\n' :: (pfx ++ w ++ [' '])))
            = (L ++ lst :: P) ++ [pl ++ (wl ++ [' '])] := by
          rw [hout]; simp
        have hok2 : wrap_ok maxw pfx (pl ++ (wl ++ [' '])) := by
          by_cases hlong : w.length ≤ maxw
          · subst hwwl
            exact Or.inl (by simp; omega)
          · obtain ⟨u, hu, hul⟩ := word_gives_long_piece pl w [' '] hw
            subst hwwl
            exact Or.inr ⟨u, hu, by omega⟩
        apply ih hws2 (w.length + 1) _ (L ++ lst :: P) (pl ++ (wl ++ [' '])) hout2
        · intro l hl
          rcases List.mem_append.mp hl with h | h
          · exact hL l h
          · rcases List.mem_cons.mp h with h2 | h2
            · exact h2 ▸ hlst
            · exact hPok l h2
        · exact hok2
        · subst hwwl; simp; omega
      | cons w0 W1 =>
        have hglue : glue (P ++ [pl]) ((w0 :: W1) ++ [wl ++ [' ']])
            = P ++ (pl ++ w0) :: (W1 ++ [wl ++ [' ']]) := by
          rw [List.cons_append, glue_concat]
        rw [hglue] at hout
        have hout2 : splitOnChar '\n' (out ++ ('\n' :: (pfx ++ w ++ [' '])))
            = (L ++ lst :: (P ++ (pl ++ w0) :: W1)) ++ [wl ++ [' ']] := by
          rw [hout]; simp
        have hw0 : List.Sublist w0 w := hsubw w0 (by simp)
        have hw0sp : ' ' ∉ w0 := fun hsp => hw (hw0.subset hsp)
        have hok0 : wrap_ok maxw pfx (pl ++ w0) := by
          by_cases hlong : w0.length ≤ maxw
          · exact Or.inl (by simp; omega)
          · obtain ⟨u, hu, hul⟩ := word_gives_long_piece pl w0 [] hw0sp
            rw [List.append_nil] at hu
            exact Or.inr ⟨u, hu, by omega⟩
        have hokW1 : ∀ f ∈ W1, wrap_ok maxw pfx f := by
          intro f hf
          have hfw : List.Sublist f w := hsubw f (by simp [hf])
          by_cases hlong : f.length ≤ maxw
          · exact Or.inl (by omega)
          · have hfsp : ' ' ∉ f := fun hsp => hw (hfw.subset hsp)
            obtain ⟨u, hu, hul⟩ := word_gives_long_piece [] f [] hfsp
            rw [List.nil_append, List.append_nil] at hu
            exact Or.inr ⟨u, hu, by omega⟩
        have hok2 : wrap_ok maxw pfx (wl ++ [' ']) := by
          by_cases hlong : wl.length ≤ maxw
          · exact Or.inl (by simp; omega)
          · obtain ⟨u, hu, hul⟩ := word_gives_long_piece [] wl [' '] hwlsp
            rw [List.nil_append] at hu
            exact Or.inr ⟨u, hu, by omega⟩
        apply ih hws2 (w.length + 1) _
          (L ++ lst :: (P ++ (pl ++ w0) :: W1)) (wl ++ [' ']) hout2
        · intro l hl
          rcases List.mem_append.mp hl with h | h
          · exact hL l h
          · rcases List.mem_cons.mp h with h2 | h2
            · exact h2 ▸ hlst
            · rcases List.mem_append.mp h2 with h3 | h3
              · exact hPok l h3
              · rcases List.mem_cons.mp h3 with h4 | h4
                · exact h4 ▸ hok0
                · exact hokW1 l h4
        · exact hok2
        · simp; omega
    · -- no overflow: the word joins the current line
      have hov2 : sl + w.length ≤ maxw := Nat.le_of_not_lt hov
      have hstep : ssl_step maxw pfx (sl, out) w
          = (sl + w.length + 1, out ++ (w ++ [' '])) := by
        simp [ssl_step, hov]
      rw [hstep]
      have hout : splitOnChar '\n' (out ++ (w ++ [' ']))
          = glue (L ++ [lst]) (W ++ [wl ++ [' ']]) := by
        rw [splitOnChar_append, hsplit, hwsp]
      cases W with
      | nil =>
        have hwwl : w = wl := eq_of_splitOnChar_single (by simpa using hW)
        have hout2 : splitOnChar '\n' (out ++ (w ++ [' ']))
            = L ++ [lst ++ (wl ++ [' '])] := by
          rw [hout, List.nil_append, glue_concat]
        apply ih hws2 (sl + w.length + 1) _ L (lst ++ (wl ++ [' '])) hout2 hL
        · subst hwwl
          exact Or.inl (by simp; omega)
        · subst hwwl; simp; omega
      | cons w0 W1 =>
        have hout2 : splitOnChar '\n' (out ++ (w ++ [' ']))
            = (L ++ (lst ++ w0) :: W1) ++ [wl ++ [' ']] := by
          rw [hout, List.cons_append, glue_concat]; simp
        have hw0 : List.Sublist w0 w := hsubw w0 (by simp)
        apply ih hws2 (sl + w.length + 1) _ (L ++ (lst ++ w0) :: W1) (wl ++ [' ']) hout2
        · intro l hl
          rcases List.mem_append.mp hl with h | h
          · exact hL l h
          · rcases List.mem_cons.mp h with h2 | h2
            · have := hw0.length_le
              exact h2 ▸ Or.inl (by simp; omega)
            · have hfw : List.Sublist l w := hsubw l (by simp [h2])
              have := hfw.length_le
              exact Or.inl (by omega)
        · exact Or.inl (by simp; omega)
        · simp; omega

/-- Every line of a `split_string_length` output satisfies `wrap_ok`. -/
lemma split_string_length_lines (s : LC) (maxw : Nat) (pfx : LC) :
    ∀ l ∈ splitOnChar '\n' (split_string_length s maxw pfx), wrap_ok maxw pfx l := by
  intro l hl
  rw [split_string_length] at hl
  obtain ⟨L2, lst2, hsplit, hL2, hlst2, -⟩ :=
    ssl_fold_invariant maxw pfx (splitOnChar ' ' s) (splitOnChar_not_mem ' ' s)
      0 [] [] [] rfl (by simp) (Or.inl (by simp)) (by simp)
  rw [splitOnChar_append, hsplit] at hl
  have h1 : splitOnChar '\n' ['\n'] = [] :: [[]] := rfl
  rw [h1, glue_concat, List.append_nil] at hl
  rcases List.mem_append.mp hl with h | h
  · exact hL2 l h
  · rcases List.mem_cons.mp h with h2 | h2
    · exact h2 ▸ hlst2
    · have : l = [] := by simpa using h2
      exact Or.inl (by simp [this])

/-- Claim C1 (amended): for every input, every max width, every prefix and
every number of repeated applications with the same width and prefix,
every line of the result either fits within the max width plus the length
of the prefix plus the single trailing space the function appends to each
line, or contains a word longer than the max width (the original claim's
exception, which also covers over-long words carried over from earlier
applications).  The bound `pfx.length + max_length + 1` is tight: see the
counterexample for the claim as stated. -/
theorem split_string_length_line_bound (max_length : Nat) (pfx s : LC) (n : Nat)
    (l : LC)
    (hl : l ∈ splitOnChar '\n' (split_string_length
        (Nat.iterate (fun t => split_string_length t max_length pfx) n s)
        max_length pfx)) :
    l.length ≤ pfx.length + max_length + 1
      ∨ ∃ u ∈ splitOnChar ' ' l, max_length < u.length :=
  split_string_length_lines _ max_length pfx l hl

/-- Witness for the amended C1 at width 5 on "ab cd" (first application:
the line "ab cd " has length 6 = 5 + 1). -/
theorem split_string_length_line_bound_witness :
    (lc "ab cd ").length ≤ ([] : LC).length + 5 + 1
      ∨ ∃ u ∈ splitOnChar ' ' (lc "ab cd "), 5 < u.length :=
  split_string_length_line_bound 5 [] (lc "ab cd") 0 (lc "ab cd ") (by decide)

/-- Counterexample to C1 as stated: with positive max width 5, wrapping
"ab cd" produces the line "ab cd " of length 6 (the function appends a
trailing space), which exceeds the width even though every word of the
line fits within the width, so the single-long-word exception cannot
apply. -/
theorem split_string_length_exceeds_width :
    0 < 5
    ∧ ∃ l ∈ splitOnChar '\n' (split_string_length (lc "ab cd") 5 []),
        5 < l.length ∧ ∀ u ∈ splitOnChar ' ' l, u.length ≤ 5 := by
  decide

end BashTemplate
